import Mathlib

/-!
Verification of the generation agent (`src/agents/generation.js`, the
Grok/ElevenLabs variant): a shallow embedding of its script helpers,
permission gate, retry wrapper, polling loop and batch orchestration,
together with proofs of the specified properties.

Modelling conventions:
* JS strings are Lean `String`s; character-level helpers work on `List Char`.
* JS truthiness of strings/numbers/optionals is modelled explicitly
  (`jsOr`, empty string and zero are falsy).
* Ambient nondeterminism (wall clock, `crypto.randomBytes`) is threaded as
  an explicit `World` value; code that never reads the clock or randomness
  ignores it, which is what the determinism theorems check.
* Network and database collaborators are environment inputs: each call
  outcome of each call site is supplied by an environment record, and the embedding
  records a trace of collaborator calls (`CallEvent`) so that
  "makes zero calls to X" is a statement about the produced trace.
-/

namespace GenAgent

/-- Sentence-terminating characters of the regex `[^.!?]+[.!?]+`. -/
def isPunct (c : Char) : Bool :=
  c == '.' || c == '!' || c == '?'

/-- Whitespace characters removed by `String.prototype.trim` (ASCII subset). -/
def isWs (c : Char) : Bool :=
  c == ' ' || c == '\t' || c == '\n' || c == '\r'

/-- Does the pattern (first argument) occur at the head of the second list? -/
def leadsWith : List Char → List Char → Bool
  | [], _ => true
  | _ :: _, [] => false
  | a :: as, b :: bs => a == b && leadsWith as bs

/-- JS `String.prototype.includes`: does `sub` occur anywhere in `s`? -/
def hasSub (sub : List Char) : List Char → Bool
  | [] => sub.isEmpty
  | c :: rest => leadsWith sub (c :: rest) || hasSub sub rest

/-- One global-match pass of the regex `/[^.!?]+[.!?]+/g`: characters that
cannot start a match are skipped, each match is a maximal run of
non-terminator characters followed by a maximal run of terminators.
`fuel` bounds the recursion; the callers pass the input length, which
suffices because every step consumes at least one character. -/
def sentencesAux (fuel : Nat) (l : List Char) : List (List Char) :=
  match fuel with
  | 0 => []
  | fuel + 1 =>
    match l with
    | [] => []
    | c :: rest =>
      if isPunct c then sentencesAux fuel rest
      else
        let core := (c :: rest).takeWhile (fun x => !isPunct x)
        let after := (c :: rest).dropWhile (fun x => !isPunct x)
        match after with
        | [] => []
        | _ :: _ =>
          (core ++ after.takeWhile isPunct) :: sentencesAux fuel (after.dropWhile isPunct)

/-- All matches of `/[^.!?]+[.!?]+/g` in the text. -/
def splitSentences (l : List Char) : List (List Char) :=
  sentencesAux l.length l

/-- JS `String.prototype.trim` on a character list. -/
def jsTrim (l : List Char) : List Char :=
  ((l.dropWhile isWs).reverse.dropWhile isWs).reverse

/-- JS `a || d` for an optional string `a` (empty string is falsy). -/
def jsOr (a : Option String) (d : String) : String :=
  match a with
  | none => d
  | some s => if s = "" then d else s

/-- The fixed impact-word lexicon of `extractKeyQuote`. -/
def impactWords : List (List Char) :=
  ["amazing".data, "incredible".data, "best".data, "love".data, "perfect".data,
   "excellent".data, "fantastic".data, "wonderful".data, "great".data, "highly".data,
   "recommend".data, "changed".data, "transformed".data, "solved".data, "finally".data,
   "exactly".data, "everything".data]

/-- Score of one sentence in `extractKeyQuote`: number of lexicon words the
lowercased sentence contains, plus one when `30 < length < 200`. -/
def scoreSentence (s : List Char) : Nat :=
  let lower := s.map Char.toLower
  let base := (impactWords.filter (fun w => hasSub w lower)).length
  if 30 < s.length && s.length < 200 then base + 1 else base

/-- The selection loop of `extractKeyQuote`: keep the first sentence whose
score strictly exceeds the best score so far (initially `(sentences[0], 0)`). -/
def bestOf : List (List Char) → List Char × Nat → List Char × Nat
  | [], acc => acc
  | s :: rest, (best, bestScore) =>
    let sc := scoreSentence s
    if sc > bestScore then bestOf rest (s, sc) else bestOf rest (best, bestScore)

/-- `sentences = text.match(/[^.!?]+[.!?]+/g) || [text]` of `extractKeyQuote`. -/
def sentencesOf (l : List Char) : List (List Char) :=
  match splitSentences l with
  | [] => [l]
  | s :: ss => s :: ss

/-- `extractKeyQuote(text)` from the source: empty text gets the placeholder,
otherwise the first highest-scoring sentence (trimmed). -/
def extractKeyQuote (text : String) : String :=
  if text.data.isEmpty then "Great experience!"
  else
    let sentences := sentencesOf text.data
    let best := (bestOf sentences (sentences.headD [], 0)).1
    String.mk (jsTrim best)

/-- Shared shape of the four `extract*Context` helpers: the first regex
sentence containing one of the indicator words (lowercased substring
match), trimmed; otherwise the canned default. Here `sentences` falls back
to `[]`, not `[text]`, matching `text.match(...) || []` in those helpers. -/
def firstSentenceWith (indicators : List (List Char)) (text : String) (deflt : String) : String :=
  let sentences := splitSentences text.data
  match sentences.find? (fun s => indicators.any (fun w => hasSub w (s.map Char.toLower))) with
  | some s => String.mk (jsTrim s)
  | none => deflt

/-- `extractProblemContext` from the source. -/
def extractProblemContext (text : String) : String :=
  firstSentenceWith
    ["before".data, "used to".data, "struggled".data, "problem".data, "issue".data,
     "frustrated".data, "difficult".data, "couldn\x27t".data, "wasn\x27t".data]
    text "They faced challenges that many can relate to."

/-- `extractSolutionContext` from the source. -/
def extractSolutionContext (text : String) : String :=
  firstSentenceWith
    ["solved".data, "fixed".data, "helped".data, "works".data, "solution".data,
     "now".data, "finally".data, "perfect".data, "exactly".data]
    text "The solution exceeded all expectations."

/-- `extractTransformationContext` from the source. -/
def extractTransformationContext (text : String) : String :=
  firstSentenceWith
    ["changed".data, "transformed".data, "different".data, "now".data,
     "before and after".data, "improvement".data, "better".data]
    text "The results speak for themselves."

/-- `extractEmotionalContext` from the source. -/
def extractEmotionalContext (text : String) : String :=
  firstSentenceWith
    ["feel".data, "felt".data, "love".data, "happy".data, "relieved".data,
     "grateful".data, "excited".data, "thrilled".data, "amazed".data]
    text "The experience left a lasting impression."

/-- Ambient runtime state a JS function could consult: the wall clock
(`Date.now()`, `new Date().toISOString()`) and the random bytes drawn by
`crypto.randomBytes(4).toString(\x27hex\x27)`. It is passed to every
embedded function that runs in this runtime; functions whose source never
reads the clock or randomness simply do not use it. -/
structure World where
  now : Nat
  nowIso : String
  randHex : String
deriving DecidableEq, Repr

/-- The review input of the generation agent (external, read-only). JS
truthiness of `review.id` / `review.text` is modelled as "not the empty
string". -/
structure Review where
  id : String
  text : String
  author : Option String
  rating : Option Nat
  platform : Option String
deriving DecidableEq, Repr

/-- `NARRATIVE_ANGLES.problem.template` from the source. -/
def problemTemplate (review : Review) (_w : World) : String :=
  let authorName := jsOr review.author "A valued customer"
  "Before discovering this solution, " ++ authorName ++ " was struggling. " ++
    extractProblemContext review.text ++
    " Like many others, they felt frustrated and were looking for answers. Here\x27s their story of what they were going through...\n\n\"" ++
    extractKeyQuote review.text ++
    "\"\n\nIf you\x27re facing similar challenges, you\x27re not alone."

/-- `NARRATIVE_ANGLES.solution.template` from the source. -/
def solutionTemplate (review : Review) (_w : World) : String :=
  let authorName := jsOr review.author "A satisfied customer"
  authorName ++ " found exactly what they needed. " ++
    extractSolutionContext review.text ++
    " The difference was immediate and noticeable.\n\n\"" ++
    extractKeyQuote review.text ++
    "\"\n\nThis is how the right solution can change everything."

/-- `NARRATIVE_ANGLES.transformation.template` from the source; the rating
interpolation uses JS number truthiness (`0` is falsy). -/
def transformationTemplate (review : Review) (_w : World) : String :=
  let authorName := jsOr review.author "Our customer"
  let rating :=
    match review.rating with
    | some r => if r = 0 then "highly rated" else toString r ++ " out of 5 stars"
    | none => "highly rated"
  "From struggle to success - " ++ authorName ++ "\x27s transformation is remarkable. " ++
    extractTransformationContext review.text ++
    "\n\n\"" ++ extractKeyQuote review.text ++
    "\"\n\nRated " ++ rating ++ ". This could be your transformation too."

/-- `EXTENDED_ANGLES.emotional.template` from the source. -/
def emotionalTemplate (review : Review) (_w : World) : String :=
  let authorName := jsOr review.author "A customer"
  authorName ++ "\x27s experience was more than just a transaction - it was an emotional journey. " ++
    extractEmotionalContext review.text ++
    "\n\n\"" ++ extractKeyQuote review.text ++
    "\"\n\nReal experiences. Real emotions. Real results."

/-- `EXTENDED_ANGLES.trust.template` from the source: `platform` is
`review.platform ? \x60from X\x60 : \x27\x27`, then the template falls back
to a generic phrase when that is falsy. -/
def trustTemplate (review : Review) (_w : World) : String :=
  let authorName := jsOr review.author "A verified customer"
  let platform :=
    match review.platform with
    | some p => if p = "" then "" else "from " ++ p
    | none => ""
  "Hear it directly " ++ (if platform = "" then "from a real customer" else platform) ++
    ". " ++ authorName ++ " shares their honest experience.\n\n\"" ++
    extractKeyQuote review.text ++
    "\"\n\nAuthentic reviews from real customers who\x27ve been there."

/-- One entry of the angle tables: display name, description and script
template. -/
structure AngleCfg where
  name : String
  description : String
  template : Review → World → String

/-- `Object.entries(NARRATIVE_ANGLES)` in insertion order. -/
def NARRATIVE_ANGLES : List (String × AngleCfg) :=
  [("problem",
    ⟨"Problem-Focused",
     "Focuses on the customer\x27s pain points before using the product",
     problemTemplate⟩),
   ("solution",
    ⟨"Solution-Focused",
     "Highlights how the product solved their problem",
     solutionTemplate⟩),
   ("transformation",
    ⟨"Transformation-Focused",
     "Shows the before/after transformation and results",
     transformationTemplate⟩)]

/-- `Object.entries(EXTENDED_ANGLES)` in insertion order. -/
def EXTENDED_ANGLES : List (String × AngleCfg) :=
  [("emotional",
    ⟨"Emotional-Focused",
     "Emphasizes the emotional journey and feelings",
     emotionalTemplate⟩),
   ("trust",
    ⟨"Trust-Focused",
     "Builds credibility through authentic testimonial",
     trustTemplate⟩)]

/-- Script rendering at the `NarrativeTemplateEngine` boundary: look the
angle up in the combined table and apply its template. -/
def renderScript (angle : String) (review : Review) (w : World) : Option String :=
  ((NARRATIVE_ANGLES ++ EXTENDED_ANGLES).find? (fun e => e.1 == angle)).map
    (fun e => e.2.template review w)

/-- A raw JS error as seen by `withRetry` and by the `catch` blocks:
`name`/`message` plus, for the API error classes, the status code used by
`isRetryable()`; `hasRetryCheck` records whether the value has an
`isRetryable` method at all (plain errors do not), and `code` carries the
Node network error code if any. -/
structure JsErr where
  name : String
  message : String
  statusCode : Option Nat
  hasRetryCheck : Bool
  code : Option String
deriving DecidableEq, Repr

/-- `isRetryable()` of `ElevenLabsAPIError`/`GrokAPIError`:
`statusCode === 429 || (statusCode >= 500 && statusCode < 600)`. A `null`
status code compares false on both sides in JS. -/
def statusRetryable : Option Nat → Bool
  | some c => c == 429 || (500 ≤ c && c < 600)
  | none => false

/-- The retryability classification in `withRetry`:
`error.isRetryable?.() || code === \x27ECONNRESET\x27 || ... `. -/
def jsIsRetryable (e : JsErr) : Bool :=
  (e.hasRetryCheck && statusRetryable e.statusCode) ||
    e.code == some "ECONNRESET" || e.code == some "ETIMEDOUT" || e.code == some "ENOTFOUND"

/-- One entry of the `errors` array of the angle loop:
`{ angle, error: error.message, errorType: error.name }`. -/
structure AngleFailure where
  angle : String
  error : String
  errorType : String
deriving DecidableEq, Repr

/-- The typed errors the generation agent throws, mirroring the source
classes (`Error` for input validation, `PermissionError`,
`ElevenLabsAPIError`, `GrokAPIError`). The aggregate thrown when every
angle fails is a `GrokAPIError` whose response carries the per-angle
failure list, hence the `aggErrors` field (empty for ordinary
`GrokAPIError`s). -/
inductive GenError where
  | invalidInput (message : String)
  | permission (message : String) (reviewId : String)
  | elevenLabs (message : String) (statusCode : Option Nat)
  | grok (message : String) (statusCode : Option Nat) (aggErrors : List AngleFailure)
deriving DecidableEq, Repr

/-- `error.name` of a `GenError`. -/
def GenError.name : GenError → String
  | .invalidInput _ => "Error"
  | .permission _ _ => "PermissionError"
  | .elevenLabs _ _ => "ElevenLabsAPIError"
  | .grok _ _ _ => "GrokAPIError"

/-- `error.message` of a `GenError`. -/
def GenError.message : GenError → String
  | .invalidInput m => m
  | .permission m _ => m
  | .elevenLabs m _ => m
  | .grok m _ _ => m

/-- A consent record returned by `getPermissions(reviewId)`. -/
structure PermissionRecord where
  id : Nat
  status : String
deriving DecidableEq, Repr

/-- One collaborator interaction, recorded in the trace of a run:
`ttsCall` is an invocation of the ElevenLabs client
(`generateVoiceover`), `videoCall` an invocation of the Grok video client
(`generateVideo`, covering submit/poll/download), `dbRead`/`dbWrite` the
persistence collaborator, `fsOp` a filesystem touch. -/
inductive CallEvent where
  | ttsCall
  | videoCall
  | dbRead
  | dbWrite
  | fsOp
deriving DecidableEq, Repr

/-- `validatePermission(review)` from the source. The outcome of the
`getPermissions(review.id)` collaborator call is the `gp` input
(`.error` when the lookup itself throws). Returns the result together
with the trace of collaborator calls it performs: exactly one read,
never a write. -/
def validatePermission (review : Review) (gp : Except JsErr (List PermissionRecord)) :
    Except GenError Bool × List CallEvent :=
  match gp with
  | .error e =>
    (.error (.permission
      ("Failed to validate permission for review " ++ review.id ++ ": " ++ e.message)
      review.id), [.dbRead])
  | .ok permissions =>
    if permissions.isEmpty then
      (.error (.permission
        ("No permission record found for review " ++ review.id) review.id), [.dbRead])
    else
      match permissions.find? (fun p => p.status == "approved") with
      | some _ => (.ok true, [.dbRead])
      | none =>
        (.error (.permission
          ("Permission not approved for review " ++ review.id ++ ". Current status: " ++
            (permissions.headD ⟨0, ""⟩).status) review.id), [.dbRead])

/-- `MAX_RETRIES` from the source. -/
def MAX_RETRIES : Nat := 3

/-- `INITIAL_RETRY_DELAY` (milliseconds) from the source. -/
def INITIAL_RETRY_DELAY : Nat := 1000

/-- The observable outcome of one `withRetry` run: the value returned or
the error finally thrown, the number of invocations of the wrapped
operation, the sleeps performed between attempts, and the final
`logger.logError` annotation `(operationName, maxRetries)` emitted just
before rethrowing (absent on success). -/
structure RetryRun (α : Type) where
  result : Except JsErr α
  invocations : Nat
  delays : List Nat
  finalLog : Option (String × Nat)
deriving Repr

/-- The attempt loop of `withRetry`: `fn i` is the outcome of the `i`-th
invocation (1-based) of the wrapped operation. -/
def withRetryAux (fn : Nat → Except JsErr α) (operationName : String) (maxRetries : Nat)
    (attempt : Nat) (delay : Nat) (delays : List Nat) : RetryRun α :=
  match fn attempt with
  | .ok v => ⟨.ok v, attempt, delays, none⟩
  | .error e =>
    if _h : jsIsRetryable e = true ∧ attempt < maxRetries then
      withRetryAux fn operationName maxRetries (attempt + 1) (delay * 2) (delays ++ [delay])
    else
      ⟨.error e, attempt, delays, some (operationName, maxRetries)⟩
termination_by maxRetries - attempt
decreasing_by omega

/-- `withRetry(fn, operationName, maxRetries)` from the source; callers
that rely on the default pass `MAX_RETRIES`. -/
def withRetry (fn : Nat → Except JsErr α) (operationName : String)
    (maxRetries : Nat) : RetryRun α :=
  withRetryAux fn operationName maxRetries 1 INITIAL_RETRY_DELAY []

/-- `DEFAULT_DURATION` (seconds) from the source. -/
def DEFAULT_DURATION : Nat := 30

/-- `VIDEO_GENERATION_TIMEOUT` (milliseconds) from the source. -/
def VIDEO_GENERATION_TIMEOUT : Nat := 5 * 60 * 1000

/-- `POLLING_INTERVAL` (milliseconds) from the source. -/
def POLLING_INTERVAL : Nat := 10 * 1000

/-- JS `a || b` for optional strings (empty string and `undefined` are
falsy). -/
def jsOrS : Option String → Option String → Option String
  | some s, b => if s = "" then b else some s
  | none, b => b

/-- JS `a || d` for an optional number (`0` and `undefined` are falsy). -/
def jsOrN : Option Nat → Nat → Nat
  | some n, d => if n = 0 then d else n
  | none, d => d

/-- JS `a || b || d` for optional strings with a string default. -/
def jsOrD (a b : Option String) (d : String) : String :=
  match jsOrS a (jsOrS b (some d)) with
  | some s => s
  | none => d

/-- The JSON body of one Grok status response, with the fields
`pollVideoGeneration` reads: `status`, `video_url`, `output.url`,
`result.url`, `duration`, `output.duration`, `error`, `message`. -/
structure PollData where
  status : String
  videoUrl : Option String
  outputUrl : Option String
  resultUrl : Option String
  duration : Option Nat
  outputDuration : Option Nat
  errField : Option String
  msgField : Option String
deriving DecidableEq, Repr

/-- The outcome of the `i`-th status query inside the polling loop:
a parsed 2xx body, a non-2xx response (which the source turns into a
`GrokAPIError` with that status code), or a thrown network-level error
(not a `GrokAPIError`). -/
inductive QueryOutcome where
  | ok (d : PollData)
  | httpErr (code : Nat)
  | netErr (message : String)
deriving DecidableEq, Repr

/-- The value returned by a completed poll:
`video_url || output?.url || result?.url` and
`duration || output?.duration || DEFAULT_DURATION`. -/
def pollResultOf (d : PollData) : Option String × Nat :=
  (jsOrS d.videoUrl (jsOrS d.outputUrl d.resultUrl),
   jsOrN d.duration (jsOrN d.outputDuration DEFAULT_DURATION))

/-- The `failed`/`error` branch error of the polling loop. -/
def pollFailedErr (d : PollData) : GenError :=
  .grok ("Video generation failed: " ++ jsOrD d.errField d.msgField "Unknown error") none []

/-- The timeout error thrown when the loop guard fails. -/
def pollTimeoutErr (timeoutMs : Nat) : GenError :=
  .grok ("Video generation timed out after " ++ toString timeoutMs ++ "ms") none []

/-- The non-retryable status-check error rethrown from the `catch`. -/
def pollStatusErr (code : Nat) : GenError :=
  .grok ("Grok status check error: " ++ toString code) (some code) []

/-- The `while` loop of `pollVideoGeneration` over a simulated clock: `q i` is
the outcome of the `i`-th status query, each continuing iteration sleeps
`POLLING_INTERVAL` before re-entering the guard, and queries themselves
take no simulated time. A `GrokAPIError` with a `null` status code —
both the `failed`-status error and the timeout error — is non-retryable
(`null` satisfies neither comparison in `isRetryable`), so the `catch`
rethrows the `failed`-status error instead of swallowing it. -/
def pollLoop (q : Nat → QueryOutcome) (timeoutMs : Nat) (elapsed : Nat) (i : Nat) :
    Except GenError (Option String × Nat) :=
  if _h : elapsed < timeoutMs then
    match q i with
    | .ok d =>
      if d.status == "completed" || d.status == "succeeded" then
        .ok (pollResultOf d)
      else if d.status == "failed" || d.status == "error" then
        .error (pollFailedErr d)
      else
        pollLoop q timeoutMs (elapsed + POLLING_INTERVAL) (i + 1)
    | .httpErr code =>
      if statusRetryable (some code) then
        pollLoop q timeoutMs (elapsed + POLLING_INTERVAL) (i + 1)
      else
        .error (pollStatusErr code)
    | .netErr _ =>
      pollLoop q timeoutMs (elapsed + POLLING_INTERVAL) (i + 1)
  else
    .error (pollTimeoutErr timeoutMs)
termination_by timeoutMs - elapsed
decreasing_by
  all_goals simp only [POLLING_INTERVAL]; omega

/-- `pollVideoGeneration(generationId, timeout)` starting at a fresh
simulated clock. -/
def pollVideoGeneration (q : Nat → QueryOutcome) (timeoutMs : Nat) :
    Except GenError (Option String × Nat) :=
  pollLoop q timeoutMs 0 0

/-- `VIDEOS_STORAGE_DIR`, relative to the process working directory. -/
def VIDEOS_STORAGE_DIR : String := "storage/videos"

/-- `TEMP_AUDIO_DIR`, relative to the process working directory. -/
def TEMP_AUDIO_DIR : String := "storage/temp/audio"

/-- `DEFAULT_VOICE_ID` from the source. -/
def DEFAULT_VOICE_ID : String := "21m00Tcm4TlvDq8ikWAM"

/-- `generateVideoFilename(reviewId, angle)`: reads `Date.now()` and
`crypto.randomBytes`, so it consumes the `World`. -/
def generateVideoFilename (reviewId angle : String) (w : World) : String :=
  reviewId ++ "_" ++ angle ++ "_" ++ toString w.now ++ "_" ++ w.randHex ++ ".mp4"

/-- `generateAudioFilename(reviewId, angle)`: reads `Date.now()`. -/
def generateAudioFilename (reviewId angle : String) (w : World) : String :=
  reviewId ++ "_" ++ angle ++ "_" ++ toString w.now ++ ".mp3"

/-- The artifact object `generateVideoForAngle` returns on success. -/
structure Video where
  id : Nat
  reviewId : String
  angle : String
  angleName : String
  filePath : String
  duration : Nat
  fileSize : Nat
  scriptText : String
  status : String
  createdAt : String
deriving DecidableEq, Repr

/-- The environment of one angle attempt: the ambient `World` when the
attempt runs and the outcomes of its two collaborator pipelines —
`generateVoiceover` (whose returned `{filePath, duration}` the caller
never uses, hence `Unit`) and `generateVideo`
(submit → poll → download, yielding `(duration, fileSize)`) — plus the
database id `saveVideo` allocates. -/
structure AngleEnv where
  world : World
  voiceover : Except GenError Unit
  video : Except GenError (Nat × Nat)
  saveId : Nat

/-- `generateVideoForAngle(review, angle, angleConfig, options)`:
render the script, then voiceover, then video, then persist; on failure
clean up partial files and rethrow. The returned trace records the
collaborator calls the attempt performed (the trailing `fsOp` is the
audio cleanup, attempted on success and failure alike). -/
def generateVideoForAngle (review : Review) (angle : String) (cfg : AngleCfg)
    (_duration : Nat) (_voiceId : String) (aenv : AngleEnv) :
    Except GenError Video × List CallEvent :=
  let scriptText := cfg.template review aenv.world
  let videoPath := VIDEOS_STORAGE_DIR ++ "/" ++ generateVideoFilename review.id angle aenv.world
  match aenv.voiceover with
  | .error e => (.error e, [.ttsCall, .fsOp])
  | .ok _ =>
    match aenv.video with
    | .error e => (.error e, [.ttsCall, .videoCall, .fsOp])
    | .ok (vdur, vsize) =>
      (.ok ⟨aenv.saveId, review.id, angle, cfg.name, videoPath, vdur, vsize,
            scriptText, "completed", aenv.world.nowIso⟩,
       [.ttsCall, .videoCall, .dbWrite, .fsOp])

/-- `Math.ceil(n / 2)` on a natural number. -/
def jsCeilHalf (n : Nat) : Nat := (n + 1) / 2

/-- The options object of `generateVideos` with the destructuring
defaults already applied
(`duration = 30`, `voiceId = DEFAULT_VOICE_ID`, `variationCount = 3`,
`includeExtendedAngles = false` when a field is absent). -/
structure GenOptions where
  duration : Nat
  voiceId : String
  variationCount : Nat
  includeExtendedAngles : Bool
deriving DecidableEq, Repr

/-- The options value for a call that passes no options. -/
def defaultGenOptions : GenOptions := ⟨DEFAULT_DURATION, DEFAULT_VOICE_ID, 3, false⟩

/-- The angle list `generateVideos` builds before the loop: base entries,
extended entries when requested, sliced to
`min(max(3, variationCount), anglesToGenerate.length)`. -/
def anglesFor (opts : GenOptions) : List (String × AngleCfg) :=
  let baseAngles := NARRATIVE_ANGLES
  let extendedAngles := if opts.includeExtendedAngles then EXTENDED_ANGLES else []
  let anglesToGenerate := baseAngles ++ extendedAngles
  let actualVariationCount := min (max 3 opts.variationCount) anglesToGenerate.length
  anglesToGenerate.take actualVariationCount

/-- Modelled from the words of the spec for the angle-set claim: the base 3
angles, plus the 2 extended angles when requested, truncated to
`variationCount` clamped to `[3, 5]`. Stated independently of the
`anglesFor` of the source so the two can be compared. -/
def specAngleSet (opts : GenOptions) : List (String × AngleCfg) :=
  (NARRATIVE_ANGLES ++ if opts.includeExtendedAngles then EXTENDED_ANGLES else []).take
    (min (max 3 opts.variationCount) 5)

/-- The state of the angle loop when it finishes: the `videos` and
`errors` arrays, the collaborator-call trace, and (instrumentation) the
angles that were actually attempted, in attempt order. -/
structure LoopOut where
  videos : List Video
  errors : List AngleFailure
  trace : List CallEvent
  attempted : List String
deriving Repr

/-- The `for (const [angle, angleConfig] of anglesToGenerate)` loop of
`generateVideos`: on success push the video; on failure push
`{angle, error, errorType}` and `break` once
`errors.length >= Math.ceil(anglesToGenerate.length / 2)`. `env i` is
the environment of the `i`-th attempted angle. -/
def genLoop (review : Review) (duration : Nat) (voiceId : String)
    (env : Nat → AngleEnv) (total : Nat) :
    List (String × AngleCfg) → Nat → List Video → List AngleFailure →
    List CallEvent → List String → LoopOut
  | [], _, videos, errors, trace, attempted => ⟨videos, errors, trace, attempted⟩
  | (angle, cfg) :: rest, i, videos, errors, trace, attempted =>
    match generateVideoForAngle review angle cfg duration voiceId (env i) with
    | (.ok v, ev) =>
      genLoop review duration voiceId env total rest (i + 1)
        (videos ++ [v]) errors (trace ++ ev) (attempted ++ [angle])
    | (.error e, ev) =>
      let errors2 := errors ++ [AngleFailure.mk angle e.message e.name]
      if errors2.length ≥ jsCeilHalf total then
        ⟨videos, errors2, trace ++ ev, attempted ++ [angle]⟩
      else
        genLoop review duration voiceId env total rest (i + 1)
          videos errors2 (trace ++ ev) (attempted ++ [angle])

/-- The collaborator environment of one `generateVideos` call: the
outcome of the `getPermissions` lookup and, per attempted angle, the
outcomes of the pipeline of that angle. -/
structure GenEnv where
  permissions : Except JsErr (List PermissionRecord)
  angle : Nat → AngleEnv

/-- `errors.map(e => angle + \x27: \x27 + message).join(\x27; \x27)`. -/
def errorSummary (errors : List AngleFailure) : String :=
  String.intercalate "; " (errors.map (fun e => e.angle ++ ": " ++ e.error))

/-- The batch-level aggregate `GrokAPIError` thrown when every angle
failed, carrying the full per-angle error list in its response. -/
def allFailedErr (review : Review) (errors : List AngleFailure) : GenError :=
  .grok ("All video generations failed for review " ++ review.id ++ ": " ++ errorSummary errors)
    none errors

/-- The observable outcome of one `generateVideos` call: the returned
artifact list or thrown error, the collaborator-call trace, and the
attempted angles in order. -/
structure GenRun where
  result : Except GenError (List Video)
  trace : List CallEvent
  attempted : List String
deriving Repr

/-- The duration validation of `generateVideos`: one of 15/30/60, else
the default. -/
def actualDurationOf (opts : GenOptions) : Nat :=
  if [15, 30, 60].contains opts.duration then opts.duration else DEFAULT_DURATION

/-- The angle loop of a validated `generateVideos` call, started on the
built angle list with empty accumulators. -/
def loopOutOf (review : Review) (opts : GenOptions) (env : GenEnv) : LoopOut :=
  genLoop review (actualDurationOf opts) opts.voiceId env.angle
    (anglesFor opts).length (anglesFor opts) 0 [] [] [] []

/-- `generateVideos(review, options)` from the source: input validation,
duration validation, storage-directory setup (`fsOp`), permission gate,
angle loop, and the empty-batch check
(`videos.length === 0 && errors.length > 0`). -/
def generateVideos (review : Review) (opts : GenOptions) (env : GenEnv) : GenRun :=
  if review.id = "" ∨ review.text = "" then
    ⟨.error (.invalidInput "Invalid review: must have id and text properties"), [], []⟩
  else
    match validatePermission review env.permissions with
    | (.error e, ptr) => ⟨.error e, [.fsOp] ++ ptr, []⟩
    | (.ok _, ptr) =>
      let o := loopOutOf review opts env
      let result :=
        if o.videos.isEmpty && !o.errors.isEmpty then
          .error (allFailedErr review o.errors)
        else
          .ok o.videos
      ⟨result, [.fsOp] ++ ptr ++ o.trace, o.attempted⟩

/-- The artifact count of a run that returned normally, `none` when it
threw. -/
def resultVideoCount : Except GenError (List Video) → Option Nat
  | .ok vs => some vs.length
  | .error _ => none

/-- Is the result the batch-level aggregate failure — a `GrokAPIError`
carrying a non-empty per-angle error list? -/
def isAllFailed : Except GenError (List Video) → Bool
  | .error (.grok _ _ (_ :: _)) => true
  | _ => false

/-- Is the outcome a thrown `PermissionError`? -/
def isPermissionErr {β : Type} : Except GenError β → Bool
  | .error (.permission _ _) => true
  | _ => false

/-! ## Helper lemmas about the sentence machinery -/

/-- A sentence terminator is not whitespace. -/
lemma punct_not_ws (c : Char) (h : isPunct c = true) : isWs c = false := by
  simp only [isPunct, Bool.or_eq_true, beq_iff_eq] at h
  rcases h with (h | h) | h <;> subst h <;> decide

/-- The head surviving `dropWhile (fun x => !isPunct x)` is a terminator. -/
lemma dropWhile_head_punct :
    ∀ (l : List Char) (a : Char) (rest : List Char),
      l.dropWhile (fun x => !isPunct x) = a :: rest → isPunct a = true := by
  intro l
  induction l with
  | nil => intro a rest h; simp [List.dropWhile] at h
  | cons c cs ih =>
    intro a rest h
    by_cases hc : isPunct c = true
    · rw [List.dropWhile_cons] at h
      simp [hc] at h
      exact h.1 ▸ hc
    · rw [List.dropWhile_cons] at h
      simp [hc] at h
      exact ih a rest h

/-- If some element of `l` fails `p`, one also survives `dropWhile p`. -/
lemma exists_mem_dropWhile (p : Char → Bool) :
    ∀ l : List Char, (∃ c ∈ l, p c = false) → ∃ c ∈ l.dropWhile p, p c = false := by
  intro l
  induction l with
  | nil => intro h; simp at h
  | cons a as ih =>
    intro h
    rw [List.dropWhile_cons]
    by_cases ha : p a = true
    · simp only [ha, if_true]
      apply ih
      rcases h with ⟨c, hc, hcp⟩
      rcases List.mem_cons.mp hc with rfl | hmem
      · exact absurd ha (by simp [hcp])
      · exact ⟨c, hmem, hcp⟩
    · simp only [ha, if_false]
      exact ⟨a, List.mem_cons_self a as, by simpa using ha⟩

/-- `jsTrim` of a list containing a non-whitespace character is non-empty. -/
lemma jsTrim_ne_nil (l : List Char) (h : ∃ c ∈ l, isWs c = false) : jsTrim l ≠ [] := by
  unfold jsTrim
  obtain ⟨c, hc, hcw⟩ := exists_mem_dropWhile isWs l h
  have h2 : ∃ c ∈ (l.dropWhile isWs).reverse, isWs c = false :=
    ⟨c, List.mem_reverse.mpr hc, hcw⟩
  obtain ⟨d, hd, hdw⟩ := exists_mem_dropWhile isWs _ h2
  intro hnil
  rw [List.reverse_eq_nil_iff] at hnil
  rw [hnil] at hd
  exact absurd hd (List.not_mem_nil d)

/-- Every sentence the regex pass produces contains a terminator. -/
lemma sentencesAux_punct :
    ∀ fuel l s, s ∈ sentencesAux fuel l → ∃ c ∈ s, isPunct c = true := by
  intro fuel
  induction fuel with
  | zero => intro l s h; simp [sentencesAux] at h
  | succ fuel ih =>
    intro l s h
    match l with
    | [] => simp [sentencesAux] at h
    | c :: rest =>
      rw [sentencesAux] at h
      by_cases hc : isPunct c = true
      · simp only [hc, if_true] at h
        exact ih rest s h
      · simp only [hc, Bool.false_eq_true, if_false] at h
        cases hafter : (c :: rest).dropWhile (fun x => !isPunct x) with
        | nil => rw [hafter] at h; simp at h
        | cons a after =>
          rw [hafter] at h
          simp only [List.mem_cons] at h
          rcases h with rfl | h
          · refine ⟨a, ?_, dropWhile_head_punct _ a after hafter⟩
            apply List.mem_append.mpr
            right
            rw [List.takeWhile_cons]
            simp [dropWhile_head_punct _ a after hafter]
          · exact ih _ s h

/-- The sentence list `extractKeyQuote` builds is never empty. -/
lemma sentencesOf_ne_nil (l : List Char) : sentencesOf l ≠ [] := by
  unfold sentencesOf
  cases splitSentences l <;> simp

/-- The default head of a non-empty list is a member. -/
lemma headD_mem {α : Type} (l : List α) (d : α) (h : l ≠ []) : l.headD d ∈ l := by
  cases l with
  | nil => exact absurd rfl h
  | cons a as => exact List.mem_cons_self a as

/-- The sentence `bestOf` selects is the initial candidate or a member of
the scanned list. -/
lemma bestOf_mem :
    ∀ ss acc, (bestOf ss acc).1 = acc.1 ∨ (bestOf ss acc).1 ∈ ss := by
  intro ss
  induction ss with
  | nil => intro acc; left; rfl
  | cons s rest ih =>
    intro acc
    obtain ⟨b, sc⟩ := acc
    rw [bestOf]
    by_cases h : scoreSentence s > sc
    · simp only [h, if_true]
      rcases ih (s, scoreSentence s) with h1 | h1
      · right; rw [h1]; exact List.mem_cons_self s rest
      · right; exact List.mem_cons_of_mem s h1
    · simp only [h, if_false]
      rcases ih (b, sc) with h1 | h1
      · left; exact h1
      · right; exact List.mem_cons_of_mem s h1

/-- The best score only grows along the scan. -/
lemma bestOf_score_mono : ∀ ss b sc, sc ≤ (bestOf ss (b, sc)).2 := by
  intro ss
  induction ss with
  | nil => intro b sc; exact Nat.le_refl sc
  | cons s rest ih =>
    intro b sc
    rw [bestOf]
    by_cases h : scoreSentence s > sc
    · simp only [h, if_true]
      exact Nat.le_trans (Nat.le_of_lt h) (ih s (scoreSentence s))
    · simp only [h, if_false]
      exact ih b sc

/-- Every scanned sentence scores at most the final best score. -/
lemma bestOf_score_ub :
    ∀ ss b sc, ∀ s ∈ ss, scoreSentence s ≤ (bestOf ss (b, sc)).2 := by
  intro ss
  induction ss with
  | nil => intro b sc s hs; simp at hs
  | cons t rest ih =>
    intro b sc s hs
    rw [bestOf]
    rcases List.mem_cons.mp hs with rfl | hmem
    · by_cases h : scoreSentence s > sc
      · simp only [h, if_true]
        exact bestOf_score_mono rest s (scoreSentence s)
      · simp only [h, if_false]
        exact Nat.le_trans (Nat.le_of_not_lt h) (bestOf_score_mono rest b sc)
    · by_cases h : scoreSentence t > sc
      · simp only [h, if_true]
        exact ih t (scoreSentence t) s hmem
      · simp only [h, if_false]
        exact ih b sc s hmem

/-! ## C8: extractKeyQuote -/

/-- C8 (amended). `extractKeyQuote` splits the text with the sentence
regex, scores each sentence against the impact-word lexicon with a length
bonus for lengths strictly between 30 and 200, and returns the trimmed
first highest-scoring sentence, falling back to the first sentence; the
empty text gets the generic placeholder. For every input containing at
least one non-whitespace character the result is a non-empty string.
(The original claim — non-empty output for every non-empty input — fails
on all-whitespace inputs such as a single space, see the
counterexample.) -/
theorem extractKeyQuote_spec :
    (∀ text : String, (∃ c ∈ text.data, isWs c = false) → extractKeyQuote text ≠ "") ∧
    extractKeyQuote "" = "Great experience!" ∧
    (∀ text : String, text.data ≠ [] →
      extractKeyQuote text =
        String.mk (jsTrim
          (bestOf (sentencesOf text.data) ((sentencesOf text.data).headD [], 0)).1)) ∧
    (∀ text : String,
      (bestOf (sentencesOf text.data) ((sentencesOf text.data).headD [], 0)).1
        ∈ sentencesOf text.data) ∧
    (∀ text : String, ∀ s ∈ sentencesOf text.data,
      scoreSentence s ≤
        (bestOf (sentencesOf text.data) ((sentencesOf text.data).headD [], 0)).2) := by
  have hmem : ∀ text : String,
      (bestOf (sentencesOf text.data) ((sentencesOf text.data).headD [], 0)).1
        ∈ sentencesOf text.data := by
    intro text
    rcases bestOf_mem (sentencesOf text.data) ((sentencesOf text.data).headD [], 0) with h | h
    · rw [h]
      exact headD_mem _ _ (sentencesOf_ne_nil text.data)
    · exact h
  have heq : ∀ text : String, text.data ≠ [] →
      extractKeyQuote text =
        String.mk (jsTrim
          (bestOf (sentencesOf text.data) ((sentencesOf text.data).headD [], 0)).1) := by
    intro text htext
    unfold extractKeyQuote
    rw [if_neg (by simpa using htext)]
  refine ⟨?_, rfl, heq, hmem, fun text s hs => bestOf_score_ub _ _ _ s hs⟩
  intro text hws
  have htext : text.data ≠ [] := by
    rcases hws with ⟨c, hc, _⟩
    exact List.ne_nil_of_mem hc
  rw [heq text htext]
  have hbest : ∃ c ∈ (bestOf (sentencesOf text.data)
      ((sentencesOf text.data).headD [], 0)).1, isWs c = false := by
    have hm := hmem text
    cases hsp : splitSentences text.data with
    | nil =>
      have hsent : sentencesOf text.data = [text.data] := by
        unfold sentencesOf; rw [hsp]
      rw [hsent] at hm ⊢
      simp only [List.mem_singleton] at hm
      rw [hm]
      exact hws
    | cons s ss =>
      have hsent : sentencesOf text.data = s :: ss := by
        unfold sentencesOf; rw [hsp]
      have hmem2 : (bestOf (sentencesOf text.data)
          ((sentencesOf text.data).headD [], 0)).1 ∈ splitSentences text.data := by
        rw [hsp, ← hsent]; exact hm
      obtain ⟨c, hc, hcp⟩ := sentencesAux_punct text.data.length text.data _ hmem2
      exact ⟨c, hc, punct_not_ws c hcp⟩
  intro hcontra
  have hd : jsTrim (bestOf (sentencesOf text.data)
      ((sentencesOf text.data).headD [], 0)).1 = [] := by
    have := congrArg String.data hcontra
    simpa using this
  exact jsTrim_ne_nil _ hbest hd

/-- Witness: the non-emptiness part of `extractKeyQuote_spec` at a
concrete review text. -/
theorem extractKeyQuote_spec_witness :
    extractKeyQuote "Amazing product! It works." ≠ "" :=
  extractKeyQuote_spec.1 "Amazing product! It works." (by decide)

/-- Counterexample to C8 as stated: the single-space text is non-empty,
yet `extractKeyQuote` returns the empty string (the lone regex-free
"sentence" is the text itself, and trimming erases it). -/
theorem extractKeyQuote_blank_counterexample :
    (" " : String) ≠ "" ∧ extractKeyQuote " " = "" := by
  refine ⟨by decide, by rfl⟩

/-! ## C9: determinism of script rendering -/

/-- C9. Rendering a script for any angle is deterministic: two calls on
the same review produce byte-identical text even when the ambient world
(clock, randomness) differs between the calls — no template reads the
`World`. -/
theorem renderScript_deterministic :
    ∀ (angle : String) (review : Review) (w1 w2 : World),
      renderScript angle review w1 = renderScript angle review w2 := by
  intro angle review w1 w2
  unfold renderScript
  cases hf : (NARRATIVE_ANGLES ++ EXTENDED_ANGLES).find? (fun e => e.1 == angle) with
  | none => rfl
  | some e =>
    have hm := List.mem_of_find?_eq_some hf
    simp only [NARRATIVE_ANGLES, EXTENDED_ANGLES, List.append_eq, List.mem_append,
      List.mem_cons, List.not_mem_nil, or_false] at hm
    rcases hm with (rfl | rfl | rfl) | (rfl | rfl) <;> rfl

/-! ## C3: withRetry -/

/-- Step equation of the retry loop: a successful attempt returns at
once. -/
lemma withRetryAux_ok {α : Type} {fn : Nat → Except JsErr α} {op : String}
    {maxR attempt d : Nat} {ds : List Nat} {v : α} (h : fn attempt = .ok v) :
    withRetryAux fn op maxR attempt d ds = ⟨.ok v, attempt, ds, none⟩ := by
  rw [withRetryAux, h]

/-- Step equation of the retry loop: a retryable failure with attempts
left sleeps the current delay, doubles it, and retries. -/
lemma withRetryAux_err_retry {α : Type} {fn : Nat → Except JsErr α} {op : String}
    {maxR attempt d : Nat} {ds : List Nat} {e : JsErr} (h : fn attempt = .error e)
    (hr : jsIsRetryable e = true) (hlt : attempt < maxR) :
    withRetryAux fn op maxR attempt d ds =
      withRetryAux fn op maxR (attempt + 1) (d * 2) (ds ++ [d]) := by
  rw [withRetryAux, h]
  dsimp only
  rw [dif_pos ⟨hr, hlt⟩]

/-- Step equation of the retry loop: a non-retryable failure, or a
failure on the last attempt, rethrows the error unchanged together with
the final log annotation. -/
lemma withRetryAux_err_stop {α : Type} {fn : Nat → Except JsErr α} {op : String}
    {maxR attempt d : Nat} {ds : List Nat} {e : JsErr} (h : fn attempt = .error e)
    (hstop : ¬(jsIsRetryable e = true ∧ attempt < maxR)) :
    withRetryAux fn op maxR attempt d ds = ⟨.error e, attempt, ds, some (op, maxR)⟩ := by
  rw [withRetryAux, h]
  dsimp only
  rw [dif_neg hstop]

/-- When every attempt from `a` through `maxR` fails retryably, the loop
runs them all, sleeps the doubling delays, and rethrows the last
error of the last attempt unchanged. -/
lemma withRetryAux_all_fail {α : Type} (fn : Nat → Except JsErr α) (op : String) (maxR : Nat)
    (hfail : ∀ i, 1 ≤ i → i ≤ maxR → ∃ e, fn i = .error e ∧ jsIsRetryable e = true) :
    ∀ n a d ds, maxR - a ≤ n → 1 ≤ a → a ≤ maxR →
      withRetryAux fn op maxR a d ds =
        ⟨fn maxR, maxR, ds ++ (List.range (maxR - a)).map (fun j => d * 2 ^ j),
         some (op, maxR)⟩ := by
  intro n
  induction n with
  | zero =>
    intro a d ds hn h1 hle
    have ha : a = maxR := by omega
    subst ha
    obtain ⟨e, he, hre⟩ := hfail a h1 hle
    rw [withRetryAux_err_stop he (by omega), he]
    simp
  | succ n ih =>
    intro a d ds hn h1 hle
    by_cases hlt : a < maxR
    · obtain ⟨e, he, hre⟩ := hfail a h1 hle
      rw [withRetryAux_err_retry he hre hlt]
      rw [ih (a + 1) (d * 2) (ds ++ [d]) (by omega) (by omega) (by omega)]
      have hk : maxR - a = (maxR - (a + 1)) + 1 := by omega
      have hmap : (List.range (maxR - a)).map (fun j => d * 2 ^ j) =
          d :: (List.range (maxR - (a + 1))).map (fun j => d * 2 * 2 ^ j) := by
        rw [hk, List.range_succ_eq_map, List.map_cons, List.map_map]
        simp only [pow_zero, Nat.mul_one]
        congr 1
        apply List.map_congr_left
        intro j _
        simp only [Function.comp_apply]
        rw [pow_succ]
        ring
      rw [List.append_assoc, hmap]
      simp
    · have ha : a = maxR := by omega
      subst ha
      obtain ⟨e, he, hre⟩ := hfail a h1 hle
      rw [withRetryAux_err_stop he (by omega), he]
      simp

/-- C3. The retry wrapper: an operation failing retryably on attempts 1
and 2 and succeeding on attempt 3 returns success after exactly 3
invocations, having slept the initial delay then its double; a
non-retryable failure propagates after exactly 1 invocation, the error
unchanged; and when every attempt fails retryably the wrapper performs
exactly `maxRetries` invocations, sleeps the doubling delay sequence
starting at `INITIAL_RETRY_DELAY`, and rethrows the error of the last
attempt unchanged, with the final log annotated by the attempt bound. -/
theorem withRetry_spec {α : Type} :
    (∀ (fn : Nat → Except JsErr α) (op : String) (e1 e2 : JsErr) (v : α),
      fn 1 = .error e1 → fn 2 = .error e2 → fn 3 = .ok v →
      jsIsRetryable e1 = true → jsIsRetryable e2 = true →
      withRetry fn op MAX_RETRIES =
        ⟨.ok v, 3, [INITIAL_RETRY_DELAY, INITIAL_RETRY_DELAY * 2], none⟩) ∧
    (∀ (fn : Nat → Except JsErr α) (op : String) (maxR : Nat) (e : JsErr),
      fn 1 = .error e → jsIsRetryable e = false →
      withRetry fn op maxR = ⟨.error e, 1, [], some (op, maxR)⟩) ∧
    (∀ (fn : Nat → Except JsErr α) (op : String) (maxR : Nat),
      1 ≤ maxR →
      (∀ i, 1 ≤ i → i ≤ maxR → ∃ e, fn i = .error e ∧ jsIsRetryable e = true) →
      withRetry fn op maxR =
        ⟨fn maxR, maxR,
         (List.range (maxR - 1)).map (fun j => INITIAL_RETRY_DELAY * 2 ^ j),
         some (op, maxR)⟩) := by
  refine ⟨?_, ?_, ?_⟩
  · intro fn op e1 e2 v h1 h2 h3 hr1 hr2
    unfold withRetry
    rw [withRetryAux_err_retry h1 hr1 (by simp [MAX_RETRIES])]
    rw [withRetryAux_err_retry h2 hr2 (by simp [MAX_RETRIES])]
    rw [withRetryAux_ok h3]
    simp
  · intro fn op maxR e h1 hr
    unfold withRetry
    rw [withRetryAux_err_stop h1 (by simp [hr])]
  · intro fn op maxR hmax hfail
    unfold withRetry
    rw [withRetryAux_all_fail fn op maxR hfail maxR 1 INITIAL_RETRY_DELAY []
      (by omega) (by omega) hmax]
    simp

/-- Witness: `withRetry_spec` at concrete operations — the
fail-fail-succeed scenario and the immediately-fatal scenario. -/
theorem withRetry_spec_witness :
    withRetry (fun i => if i < 3 then .error ⟨"ElevenLabsAPIError", "boom", some 500, true, none⟩
      else .ok 7) "generateVoiceover" MAX_RETRIES =
      ⟨.ok 7, 3, [INITIAL_RETRY_DELAY, INITIAL_RETRY_DELAY * 2], none⟩ ∧
    withRetry (fun _ => (.error ⟨"ElevenLabsAPIError", "denied", some 401, true, none⟩ :
        Except JsErr Nat)) "generateVoiceover" MAX_RETRIES =
      ⟨.error ⟨"ElevenLabsAPIError", "denied", some 401, true, none⟩, 1, [],
       some ("generateVoiceover", MAX_RETRIES)⟩ := by
  constructor
  · exact withRetry_spec.1 _ "generateVoiceover" _ _ 7 rfl rfl rfl (by decide) (by decide)
  · exact withRetry_spec.2.1 _ "generateVoiceover" MAX_RETRIES _ rfl (by decide)

/-! ## C6: the polling loop -/

/-- Is a status string terminal for the polling loop? -/
def isTerminalStatus (s : String) : Bool :=
  s == "completed" || s == "succeeded" || s == "failed" || s == "error"

/-- Step equation: a terminal success status ends the loop with the
result reference. -/
lemma pollLoop_completed {q : Nat → QueryOutcome} {t e i : Nat} {d : PollData}
    (hlt : e < t) (hq : q i = .ok d)
    (hs : d.status = "completed" ∨ d.status = "succeeded") :
    pollLoop q t e i = .ok (pollResultOf d) := by
  rw [pollLoop, dif_pos hlt, hq]
  dsimp only
  rcases hs with hs | hs <;> rw [hs] <;> rfl

/-- Step equation: a `failed`/`error` status raises the generation error
immediately (the `catch` rethrows it because its `null` status code is
classified non-retryable). -/
lemma pollLoop_failed {q : Nat → QueryOutcome} {t e i : Nat} {d : PollData}
    (hlt : e < t) (hq : q i = .ok d)
    (hs : d.status = "failed" ∨ d.status = "error") :
    pollLoop q t e i = .error (pollFailedErr d) := by
  rw [pollLoop, dif_pos hlt, hq]
  dsimp only
  rcases hs with hs | hs <;> rw [hs] <;> rfl

/-- Step equation: a non-terminal status, a retryable status-check
failure, or a network-level query error is absorbed — the loop sleeps
one interval and polls again. -/
lemma pollLoop_continue {q : Nat → QueryOutcome} {t e i : Nat} (hlt : e < t)
    (h : (∃ d, q i = .ok d ∧ isTerminalStatus d.status = false) ∨
      (∃ c, q i = .httpErr c ∧ statusRetryable (some c) = true) ∨
      (∃ m, q i = .netErr m)) :
    pollLoop q t e i = pollLoop q t (e + POLLING_INTERVAL) (i + 1) := by
  rw [pollLoop, dif_pos hlt]
  rcases h with ⟨d, hq, hterm⟩ | ⟨c, hq, hc⟩ | ⟨m, hq⟩
  · rw [hq]
    dsimp only
    simp only [isTerminalStatus, Bool.or_eq_false_iff, beq_eq_false_iff_ne, ne_eq] at hterm
    obtain ⟨⟨⟨h1, h2⟩, h3⟩, h4⟩ := hterm
    rw [if_neg (by simp [h1, h2]), if_neg (by simp [h3, h4])]
  · rw [hq]
    dsimp only
    rw [if_pos hc]
  · rw [hq]

/-- Step equation: a non-retryable status-check failure is rethrown from
the `catch` and aborts the poll. -/
lemma pollLoop_nonretryable {q : Nat → QueryOutcome} {t e i c : Nat} (hlt : e < t)
    (hq : q i = .httpErr c) (hc : statusRetryable (some c) = false) :
    pollLoop q t e i = .error (pollStatusErr c) := by
  rw [pollLoop, dif_pos hlt, hq]
  dsimp only
  rw [if_neg (by simp [hc])]

/-- Step equation: once elapsed time reaches the ceiling the loop guard
fails and the timeout error is raised. -/
lemma pollLoop_guard {q : Nat → QueryOutcome} {t e i : Nat} (hge : ¬e < t) :
    pollLoop q t e i = .error (pollTimeoutErr t) := by
  rw [pollLoop, dif_neg hge]

/-- Under a status that never becomes terminal, the loop always times
out, whatever the starting clock and query index. -/
lemma pollLoop_timeout (q : Nat → QueryOutcome) (t : Nat)
    (hq : ∀ j, ∃ d, q j = .ok d ∧ isTerminalStatus d.status = false) :
    ∀ e i, pollLoop q t e i = .error (pollTimeoutErr t) := by
  have main : ∀ n e i, t - e ≤ n → pollLoop q t e i = .error (pollTimeoutErr t) := by
    intro n
    induction n with
    | zero =>
      intro e i hn
      exact pollLoop_guard (by omega)
    | succ n ih =>
      intro e i hn
      by_cases hlt : e < t
      · rw [pollLoop_continue hlt (Or.inl (hq i))]
        exact ih (e + POLLING_INTERVAL) (i + 1) (by simp only [POLLING_INTERVAL] at *; omega)
      · exact pollLoop_guard hlt
  intro e i
  exact main (t - e) e i (Nat.le_refl _)

/-- C6. The polling contract: with time left, a `completed`/`succeeded`
status returns the result reference at once; a `failed`/`error` status
raises the generation error immediately rather than being swallowed by
the transient-error handling; a non-terminal status, a retryable
status-check error, or a network-level query error merely sleeps one
interval and continues; a non-retryable status-check error aborts; and
when the status stays non-terminal forever, the loop raises the timeout
error once the simulated clock exhausts the ceiling. -/
theorem pollVideoGeneration_spec :
    (∀ (q : Nat → QueryOutcome) (t e i : Nat) (d : PollData),
      e < t → q i = .ok d → (d.status = "completed" ∨ d.status = "succeeded") →
      pollLoop q t e i = .ok (pollResultOf d)) ∧
    (∀ (q : Nat → QueryOutcome) (t e i : Nat) (d : PollData),
      e < t → q i = .ok d → (d.status = "failed" ∨ d.status = "error") →
      pollLoop q t e i = .error (pollFailedErr d)) ∧
    (∀ (q : Nat → QueryOutcome) (t e i : Nat),
      e < t →
      ((∃ d, q i = .ok d ∧ isTerminalStatus d.status = false) ∨
        (∃ c, q i = .httpErr c ∧ statusRetryable (some c) = true) ∨
        (∃ m, q i = .netErr m)) →
      pollLoop q t e i = pollLoop q t (e + POLLING_INTERVAL) (i + 1)) ∧
    (∀ (q : Nat → QueryOutcome) (t e i c : Nat),
      e < t → q i = .httpErr c → statusRetryable (some c) = false →
      pollLoop q t e i = .error (pollStatusErr c)) ∧
    (∀ (q : Nat → QueryOutcome) (t : Nat),
      (∀ j, ∃ d, q j = .ok d ∧ isTerminalStatus d.status = false) →
      pollVideoGeneration q t = .error (pollTimeoutErr t)) := by
  refine ⟨?_, ?_, ?_, ?_, ?_⟩
  · intro q t e i d hlt hq hs
    exact pollLoop_completed hlt hq hs
  · intro q t e i d hlt hq hs
    exact pollLoop_failed hlt hq hs
  · intro q t e i hlt h
    exact pollLoop_continue hlt h
  · intro q t e i c hlt hq hc
    exact pollLoop_nonretryable hlt hq hc
  · intro q t hq
    exact pollLoop_timeout q t hq 0 0

/-- Witness: `pollVideoGeneration_spec` at concrete query streams — a
stream that completes on the first query and one that stays
`processing` forever against a 20-second ceiling. -/
theorem pollVideoGeneration_spec_witness :
    pollLoop (fun _ => .ok ⟨"completed", some "http://u", none, none, some 12, none, none, none⟩)
      20000 0 0 = .ok (some "http://u", 12) ∧
    pollVideoGeneration (fun _ => .ok ⟨"processing", none, none, none, none, none, none, none⟩)
      20000 = .error (pollTimeoutErr 20000) := by
  constructor
  · exact pollVideoGeneration_spec.1 _ 20000 0 0
      ⟨"completed", some "http://u", none, none, some 12, none, none, none⟩
      (by omega) rfl (Or.inl rfl)
  · exact pollVideoGeneration_spec.2.2.2.2 _ 20000
      (fun j => ⟨⟨"processing", none, none, none, none, none, none, none⟩, rfl, by decide⟩)

/-! ## Shared facts about the permission gate and the angle loop -/

/-- Concrete world used by the witnesses. -/
def sampleWorld : World := ⟨1000, "2024-01-01T00:00:00.000Z", "abcd1234"⟩

/-- Concrete review used by the witnesses. -/
def sampleReview : Review := ⟨"42", "Great!", some "Sarah", some 5, some "google"⟩

/-- An angle environment whose pipelines both succeed. -/
def okAngleEnv (i : Nat) : AngleEnv := ⟨sampleWorld, .ok (), .ok (30, 1000), i⟩

/-- An angle environment whose voiceover call fails with a server
error. -/
def failAngleEnv (_i : Nat) : AngleEnv :=
  ⟨sampleWorld,
   .error (.elevenLabs "ElevenLabs TTS API error: 500 Internal Server Error" (some 500)),
   .ok (30, 1000), 0⟩

/-- An approved permission record. -/
def approvedRec : PermissionRecord := ⟨1, "approved"⟩

/-- A batch environment with an approved record whose `i`-th angle
attempt succeeds when the `i`-th pattern entry is `true` and fails
otherwise (out-of-range entries succeed). -/
def patternEnv (bs : List Bool) : GenEnv :=
  ⟨.ok [approvedRec], fun i => if bs.getD i true then okAngleEnv i else failAngleEnv i⟩

/-- Options requesting all five angles. -/
def optsFive : GenOptions := ⟨30, DEFAULT_VOICE_ID, 5, true⟩

/-- `validatePermission` performs exactly one read and no write. -/
lemma validatePermission_snd (review : Review) (gp : Except JsErr (List PermissionRecord)) :
    (validatePermission review gp).2 = [CallEvent.dbRead] := by
  unfold validatePermission
  cases gp with
  | error e => rfl
  | ok perms =>
    by_cases h : perms.isEmpty
    · simp [h]
    · simp only [h, Bool.false_eq_true, if_false]
      cases hf : perms.find? (fun p => p.status == "approved") <;> simp

/-- When no record is approved, the gate throws a `PermissionError`. -/
lemma validatePermission_not_approved (review : Review) (perms : List PermissionRecord)
    (h : ∀ p ∈ perms, p.status ≠ "approved") :
    isPermissionErr (validatePermission review (.ok perms)).1 = true := by
  unfold validatePermission
  cases perms with
  | nil => rfl
  | cons p ps =>
    have hempty : (p :: ps).isEmpty = false := rfl
    have hf : (p :: ps).find? (fun q => q.status == "approved") = none := by
      apply List.find?_eq_none.mpr
      intro q hq
      simp [h q hq]
    simp only [hempty, Bool.false_eq_true, if_false, hf]
    rfl

/-- The artifact of a successful attempt is tagged with the attempted
angle. -/
lemma generateVideoForAngle_ok_angle {review : Review} {angle : String} {cfg : AngleCfg}
    {duration : Nat} {voiceId : String} {aenv : AngleEnv} {v : Video} {ev : List CallEvent}
    (h : generateVideoForAngle review angle cfg duration voiceId aenv = (.ok v, ev)) :
    v.angle = angle := by
  unfold generateVideoForAngle at h
  cases hv : aenv.voiceover with
  | error e => rw [hv] at h; simp at h
  | ok u =>
    rw [hv] at h
    cases hw : aenv.video with
    | error e => rw [hw] at h; simp at h
    | ok p =>
      obtain ⟨d, s⟩ := p
      rw [hw] at h
      dsimp only at h
      injection h with h1 h2
      injection h1 with h1
      rw [← h1]

/-- Step equation of the angle loop: success appends the artifact and
continues. -/
lemma genLoop_cons_ok {review : Review} {duration : Nat} {voiceId : String}
    {env : Nat → AngleEnv} {total : Nat} {angle : String} {cfg : AngleCfg}
    {rest : List (String × AngleCfg)} {i : Nat} {videos : List Video}
    {errors : List AngleFailure} {trace : List CallEvent} {attempted : List String}
    {v : Video} {ev : List CallEvent}
    (h : generateVideoForAngle review angle cfg duration voiceId (env i) = (.ok v, ev)) :
    genLoop review duration voiceId env total ((angle, cfg) :: rest) i videos errors trace attempted =
      genLoop review duration voiceId env total rest (i + 1)
        (videos ++ [v]) errors (trace ++ ev) (attempted ++ [angle]) := by
  rw [genLoop, h]

/-- Step equation of the angle loop: failure records
`{angle, error, errorType}` and either stops (threshold reached) or
continues. -/
lemma genLoop_cons_err {review : Review} {duration : Nat} {voiceId : String}
    {env : Nat → AngleEnv} {total : Nat} {angle : String} {cfg : AngleCfg}
    {rest : List (String × AngleCfg)} {i : Nat} {videos : List Video}
    {errors : List AngleFailure} {trace : List CallEvent} {attempted : List String}
    {e : GenError} {ev : List CallEvent}
    (h : generateVideoForAngle review angle cfg duration voiceId (env i) = (.error e, ev)) :
    genLoop review duration voiceId env total ((angle, cfg) :: rest) i videos errors trace attempted =
      if (errors ++ [AngleFailure.mk angle e.message e.name]).length ≥ jsCeilHalf total then
        ⟨videos, errors ++ [AngleFailure.mk angle e.message e.name], trace ++ ev, attempted ++ [angle]⟩
      else
        genLoop review duration voiceId env total rest (i + 1)
          videos (errors ++ [AngleFailure.mk angle e.message e.name]) (trace ++ ev) (attempted ++ [angle]) := by
  rw [genLoop, h]

/-- The loop only extends the accumulators: the final videos and errors
are the initial ones plus new entries, the angles of the new artifacts form an
order-preserving subsequence of the scanned angle names, and a non-empty
angle list contributes at least one video or error. -/
lemma genLoop_grow (review : Review) (duration : Nat) (voiceId : String)
    (env : Nat → AngleEnv) (total : Nat) :
    ∀ (angles : List (String × AngleCfg)) (i : Nat) (videos : List Video)
      (errors : List AngleFailure) (trace : List CallEvent) (attempted : List String),
      ∃ nv ne,
        (genLoop review duration voiceId env total angles i videos errors trace attempted).videos
          = videos ++ nv ∧
        (genLoop review duration voiceId env total angles i videos errors trace attempted).errors
          = errors ++ ne ∧
        List.Sublist (nv.map Video.angle) (angles.map Prod.fst) ∧
        (angles ≠ [] → nv ≠ [] ∨ ne ≠ []) := by
  intro angles
  induction angles with
  | nil =>
    intro i videos errors trace attempted
    exact ⟨[], [], by simp [genLoop], by simp [genLoop], by simp, fun h => absurd rfl h⟩
  | cons hd rest ih =>
    obtain ⟨angle, cfg⟩ := hd
    intro i videos errors trace attempted
    rcases hg : generateVideoForAngle review angle cfg duration voiceId (env i) with ⟨res, ev⟩
    cases res with
    | ok v =>
      rw [genLoop_cons_ok hg]
      obtain ⟨nv, ne, h1, h2, h3, h4⟩ :=
        ih (i + 1) (videos ++ [v]) errors (trace ++ ev) (attempted ++ [angle])
      refine ⟨v :: nv, ne, by rw [h1]; simp, h2, ?_, fun _ => Or.inl (by simp)⟩
      simp only [List.map_cons]
      rw [generateVideoForAngle_ok_angle hg]
      exact List.Sublist.cons₂ angle h3
    | error e =>
      rw [genLoop_cons_err hg]
      by_cases hth : (errors ++ [AngleFailure.mk angle e.message e.name]).length ≥ jsCeilHalf total
      · rw [if_pos hth]
        exact ⟨[], [AngleFailure.mk angle e.message e.name], by simp, by simp,
          by simp, fun _ => Or.inr (by simp)⟩
      · rw [if_neg hth]
        obtain ⟨nv, ne, h1, h2, h3, h4⟩ :=
          ih (i + 1) videos (errors ++ [AngleFailure.mk angle e.message e.name]) (trace ++ ev)
            (attempted ++ [angle])
        refine ⟨nv, AngleFailure.mk angle e.message e.name :: ne, h1, by rw [h2]; simp,
          List.Sublist.cons angle h3, fun _ => Or.inr (by simp)⟩

/-- The loop visits a prefix of the angle list, in priority order. -/
lemma genLoop_attempted_take (review : Review) (duration : Nat) (voiceId : String)
    (env : Nat → AngleEnv) (total : Nat) :
    ∀ (angles : List (String × AngleCfg)) (i : Nat) (videos : List Video)
      (errors : List AngleFailure) (trace : List CallEvent) (attempted : List String),
      ∃ m, m ≤ angles.length ∧
        (genLoop review duration voiceId env total angles i videos errors trace attempted).attempted
          = attempted ++ (angles.map Prod.fst).take m := by
  intro angles
  induction angles with
  | nil =>
    intro i videos errors trace attempted
    exact ⟨0, Nat.le_refl 0, by simp [genLoop]⟩
  | cons hd rest ih =>
    obtain ⟨angle, cfg⟩ := hd
    intro i videos errors trace attempted
    rcases hg : generateVideoForAngle review angle cfg duration voiceId (env i) with ⟨res, ev⟩
    cases res with
    | ok v =>
      rw [genLoop_cons_ok hg]
      obtain ⟨m, hm, h⟩ :=
        ih (i + 1) (videos ++ [v]) errors (trace ++ ev) (attempted ++ [angle])
      refine ⟨m + 1, by simpa using Nat.succ_le_succ hm, ?_⟩
      rw [h]
      simp [List.take_succ_cons]
    | error e =>
      rw [genLoop_cons_err hg]
      by_cases hth : (errors ++ [AngleFailure.mk angle e.message e.name]).length ≥ jsCeilHalf total
      · rw [if_pos hth]
        refine ⟨1, by simp, ?_⟩
        simp [List.take_succ_cons]
      · rw [if_neg hth]
        obtain ⟨m, hm, h⟩ :=
          ih (i + 1) videos (errors ++ [AngleFailure.mk angle e.message e.name]) (trace ++ ev)
            (attempted ++ [angle])
        refine ⟨m + 1, by simpa using Nat.succ_le_succ hm, ?_⟩
        rw [h]
        simp [List.take_succ_cons]

/-- The built angle list is never empty (at least the 3 base angles
survive the slice). -/
lemma anglesFor_ne_nil (opts : GenOptions) : anglesFor opts ≠ [] := by
  apply List.ne_nil_of_length_pos
  unfold anglesFor
  cases h : opts.includeExtendedAngles <;>
    simp [h, NARRATIVE_ANGLES, EXTENDED_ANGLES, List.length_take]

/-- Shape of a `generateVideos` run that passed input validation and the
permission gate. -/
lemma generateVideos_validated (review : Review) (opts : GenOptions) (env : GenEnv)
    (hval : ¬(review.id = "" ∨ review.text = ""))
    (hperm : (validatePermission review env.permissions).1 = .ok true) :
    generateVideos review opts env =
      ⟨if (loopOutOf review opts env).videos.isEmpty && !(loopOutOf review opts env).errors.isEmpty
          then .error (allFailedErr review (loopOutOf review opts env).errors)
          else .ok (loopOutOf review opts env).videos,
       [.fsOp] ++ (validatePermission review env.permissions).2 ++ (loopOutOf review opts env).trace,
       (loopOutOf review opts env).attempted⟩ := by
  unfold generateVideos
  rw [if_neg hval]
  rcases hvp : validatePermission review env.permissions with ⟨res, ptr⟩
  rw [hvp] at hperm
  dsimp only at hperm
  subst hperm
  rfl

/-- Shape of a `generateVideos` run stopped by the permission gate. -/
lemma generateVideos_perm_error (review : Review) (opts : GenOptions) (env : GenEnv)
    (hval : ¬(review.id = "" ∨ review.text = "")) (e : GenError)
    (hperm : (validatePermission review env.permissions).1 = .error e) :
    generateVideos review opts env =
      ⟨.error e, [.fsOp] ++ (validatePermission review env.permissions).2, []⟩ := by
  unfold generateVideos
  rw [if_neg hval]
  rcases hvp : validatePermission review env.permissions with ⟨res, ptr⟩
  rw [hvp] at hperm
  dsimp only at hperm
  subst hperm
  rfl

/-- The success value of the gate is always `true`. -/
lemma validatePermission_ok_true (review : Review) (gp : Except JsErr (List PermissionRecord))
    (b : Bool) (h : (validatePermission review gp).1 = .ok b) : b = true := by
  unfold validatePermission at h
  cases gp with
  | error e => simp at h
  | ok perms =>
    by_cases he : perms.isEmpty
    · simp [he] at h
    · simp only [he, Bool.false_eq_true, if_false] at h
      cases hf : perms.find? (fun p => p.status == "approved") <;> rw [hf] at h <;> simp at h
      exact h

/-- If the loop produced no artifact, it recorded at least one error. -/
lemma loopOutOf_videos_nil_errors (review : Review) (opts : GenOptions) (env : GenEnv)
    (hv : (loopOutOf review opts env).videos = []) :
    (loopOutOf review opts env).errors ≠ [] := by
  obtain ⟨nv, ne, h1, h2, h3, h4⟩ := genLoop_grow review (actualDurationOf opts) opts.voiceId
    env.angle (anglesFor opts).length (anglesFor opts) 0 [] [] [] []
  have h1' : (loopOutOf review opts env).videos = nv := by
    unfold loopOutOf
    rw [h1]
    simp
  have h2' : (loopOutOf review opts env).errors = ne := by
    unfold loopOutOf
    rw [h2]
    simp
  rw [h2']
  rcases h4 (anglesFor_ne_nil opts) with hnv | hne
  · rw [h1'] at hv
    exact absurd hv hnv
  · exact hne

/-! ## C1: never an empty success -/

/-- C1. A batch never returns an empty success: every normal return of
`generateVideos` carries a non-empty artifact list, and whenever the
angle loop finishes with zero artifacts the run throws the aggregate
`GrokAPIError` carrying every per-angle failure that was recorded. -/
theorem generateVideos_no_empty_success :
    (∀ (review : Review) (opts : GenOptions) (env : GenEnv) (vs : List Video),
      (generateVideos review opts env).result = .ok vs → vs ≠ []) ∧
    (∀ (review : Review) (opts : GenOptions) (env : GenEnv),
      review.id ≠ "" → review.text ≠ "" →
      (validatePermission review env.permissions).1 = .ok true →
      (loopOutOf review opts env).videos = [] →
      (generateVideos review opts env).result =
        .error (allFailedErr review (loopOutOf review opts env).errors)) := by
  constructor
  · intro review opts env vs hok
    by_cases hval : review.id = "" ∨ review.text = ""
    · unfold generateVideos at hok
      rw [if_pos hval] at hok
      exact absurd hok (by simp)
    · rcases hres : (validatePermission review env.permissions).1 with e | b
      · rw [generateVideos_perm_error review opts env hval e hres] at hok
        exact absurd hok (by simp)
      · have hb := validatePermission_ok_true review env.permissions b hres
        subst hb
        rw [generateVideos_validated review opts env hval hres] at hok
        dsimp only at hok
        by_cases hcond : ((loopOutOf review opts env).videos.isEmpty &&
            !(loopOutOf review opts env).errors.isEmpty) = true
        · rw [if_pos hcond] at hok
          exact absurd hok (by simp)
        · rw [if_neg hcond] at hok
          have hvs : (loopOutOf review opts env).videos = vs := by
            injection hok
          intro hnil
          subst hnil
          apply hcond
          have herr := loopOutOf_videos_nil_errors review opts env hvs
          rw [hvs]
          simp only [List.isEmpty_nil, Bool.true_and]
          simpa using herr
  · intro review opts env hid htext hperm hv
    have hval : ¬(review.id = "" ∨ review.text = "") := by simp [hid, htext]
    rw [generateVideos_validated review opts env hval hperm]
    dsimp only
    rw [if_pos]
    rw [hv]
    simp only [List.isEmpty_nil, Bool.true_and]
    simpa using loopOutOf_videos_nil_errors review opts env hv

/-- Witness: `generateVideos_no_empty_success` at a batch whose five
angle attempts all fail — the run throws the aggregate error. -/
theorem generateVideos_no_empty_success_witness :
    (generateVideos sampleReview optsFive
      (patternEnv [false, false, false, false, false])).result =
      .error (allFailedErr sampleReview
        (loopOutOf sampleReview optsFive (patternEnv [false, false, false, false, false])).errors) :=
  generateVideos_no_empty_success.2 sampleReview optsFive
    (patternEnv [false, false, false, false, false])
    (by decide) (by decide) rfl rfl

/-! ## C2: partial-failure policy -/

/-- C2. Each angle failure is recorded and the loop continues, unless
the cumulative failed count reaches `Math.ceil(totalAngles / 2)`, in
which case the remaining angles are skipped; with 5 requested angles and
any arrangement of exactly 2 failures, all 5 angles are attempted and
exactly 3 artifacts are returned with no error; and when the first 3
attempted angles fail consecutively, only 3 of the 5 angles are
attempted and the batch throws the aggregate failure. -/
theorem generateVideos_partial_failure_policy :
    (∀ (review : Review) (duration : Nat) (voiceId : String) (env : Nat → AngleEnv)
      (total : Nat) (angle : String) (cfg : AngleCfg) (rest : List (String × AngleCfg))
      (i : Nat) (videos : List Video) (errors : List AngleFailure) (trace : List CallEvent)
      (attempted : List String) (e : GenError) (ev : List CallEvent),
      generateVideoForAngle review angle cfg duration voiceId (env i) = (.error e, ev) →
      genLoop review duration voiceId env total ((angle, cfg) :: rest) i
          videos errors trace attempted =
        (if (errors ++ [AngleFailure.mk angle e.message e.name]).length ≥ jsCeilHalf total then
          ⟨videos, errors ++ [AngleFailure.mk angle e.message e.name],
           trace ++ ev, attempted ++ [angle]⟩
        else
          genLoop review duration voiceId env total rest (i + 1) videos
            (errors ++ [AngleFailure.mk angle e.message e.name])
            (trace ++ ev) (attempted ++ [angle]))) ∧
    (∀ b1 b2 b3 b4 b5 : Bool, [b1, b2, b3, b4, b5].count false = 2 →
      resultVideoCount (generateVideos sampleReview optsFive
        (patternEnv [b1, b2, b3, b4, b5])).result = some 3 ∧
      (generateVideos sampleReview optsFive
        (patternEnv [b1, b2, b3, b4, b5])).trace.count CallEvent.ttsCall = 5) ∧
    ((generateVideos sampleReview optsFive
        (patternEnv [false, false, false, true, true])).trace.count CallEvent.ttsCall = 3 ∧
      isAllFailed (generateVideos sampleReview optsFive
        (patternEnv [false, false, false, true, true])).result = true) := by
  refine ⟨?_, by decide, by decide⟩
  intro review duration voiceId env total angle cfg rest i videos errors trace attempted e ev h
  exact genLoop_cons_err h

/-- Witness: `generateVideos_partial_failure_policy` at the pattern
succeed–fail–succeed–fail–succeed: 3 artifacts, 5 attempts, no
error. -/
theorem generateVideos_partial_failure_policy_witness :
    resultVideoCount (generateVideos sampleReview optsFive
      (patternEnv [true, false, true, false, true])).result = some 3 ∧
    (generateVideos sampleReview optsFive
      (patternEnv [true, false, true, false, true])).trace.count CallEvent.ttsCall = 5 :=
  generateVideos_partial_failure_policy.2.1 true false true false true (by decide)

/-! ## C4: input gating -/

/-- C4. A review whose `id` or `text` is missing (falsy) makes
`generateVideos` throw `InvalidInput` immediately, with an empty
collaborator trace — in particular zero TTS-client calls and zero
video-job-client calls. -/
theorem generateVideos_invalid_input :
    ∀ (review : Review) (opts : GenOptions) (env : GenEnv),
      review.id = "" ∨ review.text = "" →
      generateVideos review opts env =
        ⟨.error (.invalidInput "Invalid review: must have id and text properties"), [], []⟩ ∧
      (generateVideos review opts env).trace.count CallEvent.ttsCall = 0 ∧
      (generateVideos review opts env).trace.count CallEvent.videoCall = 0 := by
  intro review opts env h
  have heq : generateVideos review opts env =
      ⟨.error (.invalidInput "Invalid review: must have id and text properties"), [], []⟩ := by
    unfold generateVideos
    rw [if_pos h]
  exact ⟨heq, by rw [heq]; rfl, by rw [heq]; rfl⟩

/-- Witness: `generateVideos_invalid_input` at a review with an empty
id. -/
theorem generateVideos_invalid_input_witness :
    generateVideos ⟨"", "Great!", none, none, none⟩ defaultGenOptions (patternEnv []) =
      ⟨.error (.invalidInput "Invalid review: must have id and text properties"), [], []⟩ ∧
    (generateVideos ⟨"", "Great!", none, none, none⟩ defaultGenOptions
      (patternEnv [])).trace.count CallEvent.ttsCall = 0 ∧
    (generateVideos ⟨"", "Great!", none, none, none⟩ defaultGenOptions
      (patternEnv [])).trace.count CallEvent.videoCall = 0 :=
  generateVideos_invalid_input ⟨"", "Great!", none, none, none⟩ defaultGenOptions
    (patternEnv []) (Or.inl rfl)

/-! ## C5: permission gating -/

/-- A batch environment whose only permission record is pending. -/
def pendingEnv : GenEnv := ⟨.ok [⟨7, "pending"⟩], okAngleEnv⟩

/-- C5. The gate succeeds iff some record is approved; an empty record
list fails with the "no record" reason; a non-empty list with no
approved record fails carrying the current status of the first record; the
gate performs exactly one read and no write; and a batch against a
review with no approved record throws the permission error with zero
TTS-client and video-job-client calls. -/
theorem validatePermission_spec :
    (∀ (review : Review) (perms : List PermissionRecord),
      (validatePermission review (.ok perms)).1 = .ok true ↔
        ∃ p ∈ perms, p.status = "approved") ∧
    (∀ review : Review,
      (validatePermission review (.ok [])).1 =
        .error (.permission ("No permission record found for review " ++ review.id)
          review.id)) ∧
    (∀ (review : Review) (p : PermissionRecord) (ps : List PermissionRecord),
      (∀ q ∈ p :: ps, q.status ≠ "approved") →
      (validatePermission review (.ok (p :: ps))).1 =
        .error (.permission ("Permission not approved for review " ++ review.id ++
          ". Current status: " ++ p.status) review.id)) ∧
    (∀ (review : Review) (gp : Except JsErr (List PermissionRecord)),
      (validatePermission review gp).2 = [CallEvent.dbRead] ∧
      (validatePermission review gp).2.count CallEvent.dbWrite = 0) ∧
    (∀ (review : Review) (opts : GenOptions) (env : GenEnv) (perms : List PermissionRecord),
      review.id ≠ "" → review.text ≠ "" → env.permissions = .ok perms →
      (∀ p ∈ perms, p.status ≠ "approved") →
      isPermissionErr (generateVideos review opts env).result = true ∧
      (generateVideos review opts env).trace.count CallEvent.ttsCall = 0 ∧
      (generateVideos review opts env).trace.count CallEvent.videoCall = 0) := by
  refine ⟨?_, ?_, ?_, ?_, ?_⟩
  · intro review perms
    unfold validatePermission
    cases perms with
    | nil => simp
    | cons p ps =>
      simp only [List.isEmpty_cons, Bool.false_eq_true, if_false]
      cases hf : (p :: ps).find? (fun q => q.status == "approved") with
      | some q =>
        dsimp only
        constructor
        · intro _
          refine ⟨q, List.mem_of_find?_eq_some hf, ?_⟩
          have := List.find?_some hf
          simpa using this
        · intro _
          rfl
      | none =>
        dsimp only
        constructor
        · intro h
          exact absurd h (by simp)
        · rintro ⟨q, hq, hs⟩
          have := List.find?_eq_none.mp hf q hq
          simp [hs] at this
  · intro review
    rfl
  · intro review p ps h
    unfold validatePermission
    have hf : (p :: ps).find? (fun q => q.status == "approved") = none := by
      apply List.find?_eq_none.mpr
      intro q hq
      simp [h q hq]
    simp only [List.isEmpty_cons, Bool.false_eq_true, if_false, hf]
    rfl
  · intro review gp
    refine ⟨validatePermission_snd review gp, ?_⟩
    rw [validatePermission_snd review gp]
    rfl
  · intro review opts env perms hid htext henv hnone
    have hval : ¬(review.id = "" ∨ review.text = "") := by simp [hid, htext]
    have hp : isPermissionErr (validatePermission review env.permissions).1 = true := by
      rw [henv]
      exact validatePermission_not_approved review perms hnone
    rcases hres : (validatePermission review env.permissions).1 with e | b
    · have heq := generateVideos_perm_error review opts env hval e hres
      rw [hres] at hp
      have h2 := validatePermission_snd review env.permissions
      cases e with
      | permission m rid =>
        refine ⟨by rw [heq]; rfl, ?_, ?_⟩
        · rw [heq]
          dsimp only
          rw [h2]
          rfl
        · rw [heq]
          dsimp only
          rw [h2]
          rfl
      | invalidInput m => simp [isPermissionErr] at hp
      | elevenLabs m c => simp [isPermissionErr] at hp
      | grok m c ae => simp [isPermissionErr] at hp
    · rw [hres] at hp
      simp [isPermissionErr] at hp

/-- Witness: `validatePermission_spec` at a batch whose only permission
record is pending. -/
theorem validatePermission_spec_witness :
    isPermissionErr (generateVideos sampleReview defaultGenOptions pendingEnv).result = true ∧
    (generateVideos sampleReview defaultGenOptions pendingEnv).trace.count
      CallEvent.ttsCall = 0 ∧
    (generateVideos sampleReview defaultGenOptions pendingEnv).trace.count
      CallEvent.videoCall = 0 :=
  validatePermission_spec.2.2.2.2 sampleReview defaultGenOptions pendingEnv [⟨7, "pending"⟩]
    (by decide) (by decide) rfl (by decide)

/-! ## C10: infrastructure failures surface as PermissionError -/

/-- A batch environment whose permission lookup itself throws. -/
def dbFailEnv : GenEnv := ⟨.error ⟨"SqliteError", "database is locked", none, false, none⟩, okAngleEnv⟩

/-- A batch environment with no permission record at all. -/
def noRecordEnv : GenEnv := ⟨.ok [], okAngleEnv⟩

/-- C10. An exception thrown by the persistence collaborator while
fetching permission records is caught by `validatePermission` and
rethrown as a `PermissionError` for that review; consequently, at the
`generateVideos` interface an infrastructure failure during the lookup
is indistinguishable from a consent denial — both runs throw a
`PermissionError`. -/
theorem validatePermission_infra_failure :
    (∀ (review : Review) (e : JsErr),
      (validatePermission review (.error e)).1 =
        .error (.permission
          ("Failed to validate permission for review " ++ review.id ++ ": " ++ e.message)
          review.id)) ∧
    (∀ (review : Review) (opts : GenOptions) (env : GenEnv) (e : JsErr),
      review.id ≠ "" → review.text ≠ "" → env.permissions = .error e →
      isPermissionErr (generateVideos review opts env).result = true) ∧
    (∀ (review : Review) (opts : GenOptions) (env1 env2 : GenEnv) (e : JsErr),
      review.id ≠ "" → review.text ≠ "" →
      env1.permissions = .error e → env2.permissions = .ok [] →
      isPermissionErr (generateVideos review opts env1).result = true ∧
      isPermissionErr (generateVideos review opts env2).result = true) := by
  have hinfra : ∀ (review : Review) (opts : GenOptions) (env : GenEnv) (e : JsErr),
      review.id ≠ "" → review.text ≠ "" → env.permissions = .error e →
      isPermissionErr (generateVideos review opts env).result = true := by
    intro review opts env e hid htext henv
    have hval : ¬(review.id = "" ∨ review.text = "") := by simp [hid, htext]
    have hres : (validatePermission review env.permissions).1 =
        .error (.permission
          ("Failed to validate permission for review " ++ review.id ++ ": " ++ e.message)
          review.id) := by
      rw [henv]
      rfl
    rw [generateVideos_perm_error review opts env hval _ hres]
    rfl
  refine ⟨fun review e => rfl, hinfra, ?_⟩
  intro review opts env1 env2 e hid htext henv1 henv2
  refine ⟨hinfra review opts env1 e hid htext henv1, ?_⟩
  have hval : ¬(review.id = "" ∨ review.text = "") := by simp [hid, htext]
  have hres : (validatePermission review env2.permissions).1 =
      .error (.permission ("No permission record found for review " ++ review.id)
        review.id) := by
    rw [henv2]
    rfl
  rw [generateVideos_perm_error review opts env2 hval _ hres]
  rfl

/-- Witness: `validatePermission_infra_failure` — a locked-database
lookup and an absent consent record both surface as `PermissionError`. -/
theorem validatePermission_infra_failure_witness :
    isPermissionErr (generateVideos sampleReview defaultGenOptions dbFailEnv).result = true ∧
    isPermissionErr (generateVideos sampleReview defaultGenOptions noRecordEnv).result = true :=
  validatePermission_infra_failure.2.2 sampleReview defaultGenOptions dbFailEnv noRecordEnv
    ⟨"SqliteError", "database is locked", none, false, none⟩
    (by decide) (by decide) rfl rfl

/-! ## C7: angle-set construction and ordering -/

/-- C7. The angle list a call builds equals the formula of the spec — base 3
angles, extended 2 when requested, truncated to `variationCount` clamped
to `[3, 5]`; the attempted angles are always a prefix of that list in
its priority order; and the artifacts of a normal return carry angles
forming an order-preserving subsequence of the same list. -/
theorem generateVideos_angle_set :
    (∀ opts : GenOptions, anglesFor opts = specAngleSet opts) ∧
    (∀ (review : Review) (opts : GenOptions) (env : GenEnv),
      ∃ m, m ≤ (anglesFor opts).length ∧
        (generateVideos review opts env).attempted =
          ((anglesFor opts).map Prod.fst).take m) ∧
    (∀ (review : Review) (opts : GenOptions) (env : GenEnv) (vs : List Video),
      (generateVideos review opts env).result = .ok vs →
      List.Sublist (vs.map Video.angle) ((anglesFor opts).map Prod.fst)) := by
  refine ⟨?_, ?_, ?_⟩
  · intro opts
    cases hext : opts.includeExtendedAngles
    · unfold anglesFor specAngleSet
      rw [hext]
      simp only [Bool.false_eq_true, if_false, List.append_nil]
      have h3 : NARRATIVE_ANGLES.length = 3 := rfl
      rw [List.take_of_length_le (by rw [h3]; omega),
        List.take_of_length_le (by rw [h3]; omega)]
    · unfold anglesFor specAngleSet
      rw [hext]
      rfl
  · intro review opts env
    by_cases hval : review.id = "" ∨ review.text = ""
    · refine ⟨0, Nat.zero_le _, ?_⟩
      unfold generateVideos
      rw [if_pos hval]
      rfl
    · rcases hres : (validatePermission review env.permissions).1 with e | b
      · refine ⟨0, Nat.zero_le _, ?_⟩
        rw [generateVideos_perm_error review opts env hval e hres]
        rfl
      · have hb := validatePermission_ok_true review env.permissions b hres
        subst hb
        rw [generateVideos_validated review opts env hval hres]
        obtain ⟨m, hm, h⟩ := genLoop_attempted_take review (actualDurationOf opts)
          opts.voiceId env.angle (anglesFor opts).length (anglesFor opts) 0 [] [] [] []
        refine ⟨m, hm, ?_⟩
        dsimp only
        unfold loopOutOf
        rw [h]
        simp
  · intro review opts env vs hok
    by_cases hval : review.id = "" ∨ review.text = ""
    · unfold generateVideos at hok
      rw [if_pos hval] at hok
      exact absurd hok (by simp)
    · rcases hres : (validatePermission review env.permissions).1 with e | b
      · rw [generateVideos_perm_error review opts env hval e hres] at hok
        exact absurd hok (by simp)
      · have hb := validatePermission_ok_true review env.permissions b hres
        subst hb
        rw [generateVideos_validated review opts env hval hres] at hok
        dsimp only at hok
        by_cases hcond : ((loopOutOf review opts env).videos.isEmpty &&
            !(loopOutOf review opts env).errors.isEmpty) = true
        · rw [if_pos hcond] at hok
          exact absurd hok (by simp)
        · rw [if_neg hcond] at hok
          have hvs : (loopOutOf review opts env).videos = vs := by injection hok
          obtain ⟨nv, ne, h1, h2, h3, h4⟩ := genLoop_grow review (actualDurationOf opts)
            opts.voiceId env.angle (anglesFor opts).length (anglesFor opts) 0 [] [] [] []
          have h1' : (loopOutOf review opts env).videos = nv := by
            unfold loopOutOf
            rw [h1]
            simp
          rw [← hvs, h1']
          exact h3

/-- Witness: `generateVideos_angle_set` at a run with successes on the
first, third and fifth angle — the angles of the returned artifacts are a
subsequence of the priority list. -/
theorem generateVideos_angle_set_witness :
    List.Sublist
      (((loopOutOf sampleReview optsFive
        (patternEnv [true, false, true, false, true])).videos).map Video.angle)
      ((anglesFor optsFive).map Prod.fst) :=
  generateVideos_angle_set.2.2 sampleReview optsFive
    (patternEnv [true, false, true, false, true]) _ rfl

end GenAgent
